import Mathlib

/-!
Verification of the webchanges worker module (`webchanges/worker.py`): the
per-job change classifier / retry policy in `job_runner`, the two-phase
scheduler `run_jobs`, and the memory probe `get_virt_mem`, together with a
faithful embedding of `difflib.get_close_matches` (the fuzzy matcher that
`job_runner` calls with `n=1`).
-/

namespace Webchanges

/-! ### difflib embedding (Ratcliff/Obershelp sequence matching)

`job_runner` calls `difflib.get_close_matches(new_data, history_keys, n=1)`
with the default cutoff `0.6` and a `SequenceMatcher` with no junk predicate.
The definitions below translate the parts of the Python standard library's
`difflib` that this call exercises. -/

/-- Helper for `b2jAll`: append position `i` to the entry of character `c`
(difflib builds `b2j` with `setdefault(elt, []).append(i)`, so positions are
ascending and keys appear in first-occurrence order). -/
def b2jAdd (m : List (Char × List Nat)) (c : Char) (i : Nat) : List (Char × List Nat) :=
  match m with
  | [] => [(c, [i])]
  | (c', js) :: rest =>
    if c' = c then (c', js ++ [i]) :: rest else (c', js) :: b2jAdd rest c i

/-- Ascending positions of each character of `b` (difflib's `b2j` before the
junk purge). -/
def b2jAll (b : List Char) : List (Char × List Nat) :=
  b.enum.foldl (fun m p => b2jAdd m p.2 p.1) []

/-- difflib `__chain_b` with no junk predicate: only the autojunk purge
applies (for `len(b) >= 200`, characters occurring more than
`len(b) // 100 + 1` times are dropped from the index; the junk set itself
stays empty). -/
def b2j (b : List Char) : List (Char × List Nat) :=
  let all := b2jAll b
  if 200 ≤ b.length then all.filter (fun p => p.2.length ≤ b.length / 100 + 1) else all

/-- Running best of difflib `find_longest_match`: a match of `a[besti:besti+bestsize]`
with `b[bestj:bestj+bestsize]`. -/
structure FlmBest where
  besti : Nat
  bestj : Nat
  bestsize : Nat
deriving DecidableEq, Repr

/-- One row of difflib `find_longest_match`: fold over the positions of `a[i]`
in `b` (restricted to `[blo, bhi)`, matching the `continue`/`break` of the
source on the ascending position list), building this row's `newj2len` from
the previous row's `j2len` and updating the running best on strictly longer
matches only. Python's `j2len.get(j-1, 0)` with `j = 0` reads key `-1`, which
is never present, hence the `j = 0` guard. -/
def flmRow (i blo bhi : Nat) (j2len : List (Nat × Nat)) (js : List Nat) (best : FlmBest) :
    List (Nat × Nat) × FlmBest :=
  js.foldl
    (fun acc j =>
      if blo ≤ j ∧ j < bhi then
        let k := (if j = 0 then 0 else (j2len.lookup (j - 1)).getD 0) + 1
        let newj2len := (j, k) :: acc.1
        if acc.2.bestsize < k then (newj2len, ⟨i + 1 - k, j + 1 - k, k⟩) else (newj2len, acc.2)
      else acc)
    ([], best)

/-- The main loop of difflib `find_longest_match`, over `i ∈ [alo, ahi)`. -/
def flmMain (a : Array Char) (bj : List (Char × List Nat)) (alo ahi blo bhi : Nat) : FlmBest :=
  ((List.range' alo (ahi - alo)).foldl
    (fun acc i => flmRow i blo bhi acc.1 ((bj.lookup (a.getD i ' ')).getD []) acc.2)
    ([], ⟨alo, blo, 0⟩)).2

/-- The backward extension loop of difflib `find_longest_match` (the non-junk
variant; with an empty junk set `isbjunk` is always false). The fuel bounds
the iteration count; `besti` decreases each step. -/
def extendBack (a b : Array Char) (alo blo : Nat) : Nat → FlmBest → FlmBest
  | 0, st => st
  | fuel + 1, st =>
    if alo < st.besti ∧ blo < st.bestj ∧
        a.getD (st.besti - 1) ' ' = b.getD (st.bestj - 1) ' ' then
      extendBack a b alo blo fuel ⟨st.besti - 1, st.bestj - 1, st.bestsize + 1⟩
    else st

/-- The forward extension loop of difflib `find_longest_match` (non-junk
variant). -/
def extendFwd (a b : Array Char) (ahi bhi : Nat) : Nat → FlmBest → FlmBest
  | 0, st => st
  | fuel + 1, st =>
    if st.besti + st.bestsize < ahi ∧ st.bestj + st.bestsize < bhi ∧
        a.getD (st.besti + st.bestsize) ' ' = b.getD (st.bestj + st.bestsize) ' ' then
      extendFwd a b ahi bhi fuel ⟨st.besti, st.bestj, st.bestsize + 1⟩
    else st

/-- difflib `find_longest_match` on the window `a[alo:ahi] × b[blo:bhi]`.
With an empty junk set the two junk-extension loops of the source never move,
so only the plain extension loops are modelled. -/
def find_longest_match (a b : Array Char) (bj : List (Char × List Nat))
    (alo ahi blo bhi : Nat) : FlmBest :=
  extendFwd a b ahi bhi (a.size + b.size + 1)
    (extendBack a b alo blo (a.size + 1) (flmMain a bj alo ahi blo bhi))

/-- Total size of the matching blocks of difflib `get_matching_blocks`
(the Ratcliff/Obershelp recursive decomposition); only the sum of the block
sizes feeds `ratio()`. The fuel strictly dominates the recursion depth: each
recursive window is strictly smaller. -/
def matchSum (a b : Array Char) (bj : List (Char × List Nat)) :
    Nat → Nat → Nat → Nat → Nat → Nat
  | 0, _, _, _, _ => 0
  | fuel + 1, alo, ahi, blo, bhi =>
    let m := find_longest_match a b bj alo ahi blo bhi
    if m.bestsize = 0 then 0
    else
      m.bestsize +
        (if alo < m.besti ∧ blo < m.bestj then
          matchSum a b bj fuel alo m.besti blo m.bestj
        else 0) +
        (if m.besti + m.bestsize < ahi ∧ m.bestj + m.bestsize < bhi then
          matchSum a b bj fuel (m.besti + m.bestsize) ahi (m.bestj + m.bestsize) bhi
        else 0)

/-- Total number of matching elements between `a` and `b` (the `matches` of
difflib's ratio computation, with `b2j` built from `b`). -/
def matchTotal (a b : List Char) : Nat :=
  matchSum a.toArray b.toArray (b2j b) (a.length + b.length + 1) 0 a.length 0 b.length

/-- difflib `SequenceMatcher.ratio()` with `set_seq1 = x`, `set_seq2 = w` (the
orientation `get_close_matches` uses): `2*M/T` where `M` is the matching total
and `T` the combined length, and `1` when both strings are empty
(difflib `_calculate_ratio`). Stated over `ℚ`; the claims treat the cutoff as
a tunable constant, not a floating-point artefact. -/
def ratioQ (x w : String) : ℚ :=
  if x.length + w.length = 0 then 1
  else (2 * matchTotal x.data w.data : ℚ) / ((x.length : ℚ) + (w.length : ℚ))

/-- difflib's default similarity cutoff (`cutoff=0.6`). -/
def cutoff : ℚ := 3 / 5

/-- Code-point lexicographic comparison (Python `str` ordering, used by the
tuple comparison inside `heapq.nlargest`). -/
def charsLt : List Char → List Char → Bool
  | _, [] => false
  | [], _ :: _ => true
  | a :: as, b :: bs => if a < b then true else if b < a then false else charsLt as bs

/-- `heapq.nlargest` on `(ratio, string)` pairs compares tuples
lexicographically: candidate `x` beats the incumbent `y` when its ratio is
strictly larger, or equal with the lexicographically larger string. -/
def candBetter (w x y : String) : Bool :=
  decide (ratioQ y w < ratioQ x w) ||
    (decide (ratioQ y w = ratioQ x w) && charsLt y.data x.data)

/-- Left fold selecting the `nlargest(1, ·)` element among `g :: gs`. -/
def pickBest (w : String) (g : String) (gs : List String) : String :=
  gs.foldl (fun best x => if candBetter w x best then x else best) g

/-- difflib `get_close_matches(word, possibilities, n=1, cutoff=0.6)` as called
by `job_runner`: keep the possibilities whose similarity ratio to `word`
reaches the cutoff (the `real_quick_ratio` and `quick_ratio` tests of the
source are upper bounds of `ratio`, so the triple test reduces to the `ratio`
test alone) and return the single largest by `(ratio, string)` tuple order, or
`[]` when none qualifies. -/
def get_close_matches1 (word : String) (possibilities : List String) : List String :=
  match possibilities.filter (fun x => decide (cutoff ≤ ratioQ x word)) with
  | [] => []
  | g :: gs => [pickBest word g gs]

/-! ### The per-job classifier of `job_runner` (worker.py lines 93-160) -/

/-- The kind of exception captured in `JobState.exception`:
`NotModifiedError` (HTTP 304 / identical strong validator) versus any other
exception. -/
inductive ExcKind
  | notModified
  | other
deriving DecidableEq, Repr

/-- The timestamp and etag of one entry of `history_dic_snapshots`
(`Snapshot.timestamp` / `Snapshot.etag` as read by lines 150-151). -/
structure SnapMeta where
  timestamp : Int
  etag : String
deriving DecidableEq, Repr

/-- The fields of a processed `JobState` that `job_runner` reads:
`job.max_tries`, `exception`, `error_ignored`, `tries` (as left by
`JobState.process`), the loaded previous snapshot (`old_data`,
`old_timestamp`, `old_etag`), the fetched `new_data`, and
`history_dic_snapshots` as an ordered association list `data ↦ meta`
(most recent first, deduplicated by content, as delivered by the store). -/
structure JobStateIn where
  max_tries : Option Nat
  exception : Option ExcKind
  error_ignored : Bool
  tries : Nat
  old_data : String
  old_timestamp : Int
  old_etag : String
  new_data : String
  history : List (String × SnapMeta)
deriving DecidableEq, Repr

/-- The classification verb reported for a job
(`urlwatcher.report.new/unchanged/changed/error`). -/
inductive Verb
  | new
  | unchanged
  | changed
  | error
deriving DecidableEq, Repr

/-- Which flavour of `job_state.save` ran: `save(use_old_data=True)` or plain
`save()` (persisting the new data). -/
inductive SaveKind
  | useOldData
  | newData
deriving DecidableEq, Repr

/-- The observable outcome of one `job_runner` loop iteration: what was
surfaced to reporting, whether/how the snapshot was saved, the final `tries`
value, and the final comparison baseline (`old_data`/`old_timestamp`/`old_etag`,
possibly replaced by a fuzzy match). -/
structure StepResult where
  report : Option Verb
  save : Option SaveKind
  tries : Nat
  old_data : String
  old_timestamp : Int
  old_etag : String
deriving DecidableEq, Repr

/-- Line 93: `max_tries = 0 if not job_state.job.max_tries else
job_state.job.max_tries` (both `None` and `0` are falsy). -/
def maxTriesOf (js : JobStateIn) : Nat :=
  js.max_tries.getD 0

/-- Build a `StepResult` that keeps the incoming comparison baseline. -/
def keepOld (js : JobStateIn) (report : Option Verb) (save : Option SaveKind)
    (tries : Nat) : StepResult :=
  ⟨report, save, tries, js.old_data, js.old_timestamp, js.old_etag⟩

/-- The body of the `job_runner` result loop (worker.py lines 93-160) for one
processed job state: classify, decide persistence, decide reporting.

* exception set and ignored (line 98): log only;
* `NotModifiedError` (line 104): report `unchanged`; if `tries > 0`, reset it
  to 0 and re-save the old data (304 carries no body);
* other exception with `tries < max_tries` (line 114): suppressed failure —
  re-save old data, nothing reported;
* other exception otherwise (line 121): re-save old data, report `error`;
* no exception and history present (line 130): on an exact match against the
  previous data or any deduplicated snapshot (line 132), report `unchanged`
  (resetting and saving only when `tries > 0`); otherwise (line 141) replace
  the baseline with the best fuzzy match when the deduplicated history has
  more than one entry and one is found (lines 143-151), then reset `tries`,
  save the new data and report `changed`;
* no exception and no history (line 156): reset `tries`, save, report `new`. -/
def job_runner_step (js : JobStateIn) : StepResult :=
  let max_tries := maxTriesOf js
  match js.exception with
  | some ek =>
    if js.error_ignored then
      keepOld js none none js.tries
    else
      match ek with
      | ExcKind.notModified =>
        if 0 < js.tries then keepOld js (some Verb.unchanged) (some SaveKind.useOldData) 0
        else keepOld js (some Verb.unchanged) none js.tries
      | ExcKind.other =>
        if js.tries < max_tries then keepOld js none (some SaveKind.useOldData) js.tries
        else keepOld js (some Verb.error) (some SaveKind.useOldData) js.tries
  | none =>
    if js.old_data ≠ "" ∨ js.old_timestamp ≠ 0 then
      if js.new_data = js.old_data ∨ js.new_data ∈ js.history.map Prod.fst then
        if 0 < js.tries then keepOld js (some Verb.unchanged) (some SaveKind.newData) 0
        else keepOld js (some Verb.unchanged) none js.tries
      else
        if 1 < js.history.length then
          match get_close_matches1 js.new_data (js.history.map Prod.fst) with
          | [] => keepOld js (some Verb.changed) (some SaveKind.newData) 0
          | m :: _ =>
            let meta := (js.history.lookup m).getD ⟨0, ""⟩
            ⟨some Verb.changed, some SaveKind.newData, 0, m, meta.timestamp, meta.etag⟩
        else keepOld js (some Verb.changed) (some SaveKind.newData) 0
    else
      keepOld js (some Verb.new) (some SaveKind.newData) 0

/-- Modelled from the spec: `JobState.process` lives in the handler module,
which is not part of the worker source. Per §4.3, on a failing fetch
`tries_this_run = tries_stored + 1`; per §7, `NotModifiedError` is "not a
failure", and ignored errors bypass the retry policy (§4.2 step 2 applies the
policy only to non-ignorable exceptions). So `tries` is incremented exactly
when a non-ignored exception other than `NotModifiedError` was captured, and
is otherwise left at the stored value. -/
def processTries (stored : Nat) (exception : Option ExcKind) (ignored : Bool) : Nat :=
  match exception with
  | none => stored
  | some ExcKind.notModified => stored
  | some ExcKind.other => if ignored then stored else stored + 1

/-- One persisted snapshot (data, timestamp, tries, etag), per spec §3. -/
structure Snapshot where
  data : String
  timestamp : Int
  tries : Nat
  etag : String
deriving DecidableEq, Repr

/-- Modelled from the spec: the snapshot store (not part of the worker source)
`load`s the most recent snapshot of a fingerprint, "or a zero-value tuple
(empty data, timestamp 0, tries 0, empty etag) if none exists" (§4.1); the
history is kept most recent first. -/
def load (hist : List Snapshot) : Snapshot :=
  match hist with
  | [] => ⟨"", 0, 0, ""⟩
  | s :: _ => s

/-- Modelled from the spec: the store's `get_history_data` (not part of the
worker source) returns a mapping `data ↦ snapshot`, most recent first,
"deduplicated by content (keeps the most recent occurrence's metadata)"
(§4.1). -/
def histDic : List Snapshot → List (String × SnapMeta)
  | [] => []
  | s :: rest => (s.data, ⟨s.timestamp, s.etag⟩) :: (histDic rest).filter (fun p => p.1 != s.data)

/-- The job state that a successful fetch of `new_data` produces on top of a
stored history: `exception = None`, the baseline loaded from the store, and
`tries` seeded from the stored snapshot (no increment on success). -/
def jobStateOfLoad (hist : List Snapshot) (new_data : String) (mt : Option Nat) : JobStateIn :=
  { max_tries := mt
    exception := none
    error_ignored := false
    tries := (load hist).tries
    old_data := (load hist).data
    old_timestamp := (load hist).timestamp
    old_etag := (load hist).etag
    new_data := new_data
    history := histDic hist }

/-- The loaded snapshot coincides with the zero-value tuple the store returns
when no history exists: the history is empty, or its most recent snapshot has
empty data and timestamp 0 (a degenerate stored snapshot the worker cannot
distinguish from absence of history, since line 130 only inspects `old_data`
and `old_timestamp`). -/
def loadIsZero : List Snapshot → Prop
  | [] => True
  | s :: _ => s.data = "" ∧ s.timestamp = 0

/-! ### The scheduler `run_jobs` (worker.py lines 162-232) -/

/-- The outcome of `import psutil` as bound by worker.py lines 19-22, plus
whether the probe itself raises `psutil.Error` (line 176): `missing msg` means
the import failed and `psutil` holds the error message string;
`available m` means `psutil.virtual_memory().available == m`;
`probeError` means `psutil.Error` was raised while probing. -/
inductive PsutilState
  | missing (msg : String)
  | available (virtMem : Nat)
  | probeError
deriving DecidableEq, Repr

/-- `get_virt_mem` (worker.py lines 162-180): raise `ImportError` when the
`psutil` import failed, return the available virtual memory in bytes
otherwise, falling back to `0` when `psutil.Error` is raised. -/
def get_virt_mem : PsutilState → Except String Nat
  | PsutilState.missing msg => Except.error msg
  | PsutilState.available m => Except.ok m
  | PsutilState.probeError => Except.ok 0

/-- The fields of a job that `run_jobs` reads: `index_number` (1-based
position in the job list) and `__is_browser__`. -/
structure Job where
  index_number : Nat
  is_browser : Bool
deriving DecidableEq, Repr

/-- The configuration fields of `urlwatch_config` that `run_jobs` reads. -/
structure UrlwatchConfig where
  joblist : List Int
  max_workers : Option Nat
deriving DecidableEq, Repr

/-- Python truthiness of `urlwatcher.urlwatch_config.max_workers` (line 221):
`None` and `0` are falsy. -/
def truthy : Option Nat → Bool
  | none => false
  | some 0 => false
  | some (_ + 1) => true

/-- `os.cpu_count() or 1` (line 225): `None` (and a zero count) fall back
to 1. -/
def orOne : Option Nat → Nat
  | none => 1
  | some 0 => 1
  | some (n + 1) => n + 1

/-- The range test of line 185: `-(num_jobs) <= idx <= -1 or 1 <= idx <=
num_jobs`. -/
def inRangeB (n : Nat) (idx : Int) : Bool :=
  (-(n : Int) ≤ idx && idx ≤ -1) || ((1 : Int) ≤ idx && idx ≤ (n : Int))

/-- The index normalisation of line 188: `jn if jn > 0 else len(jobs) + jn +
1`. -/
def normalizeIdx (n : Nat) (idx : Int) : Int :=
  if 0 < idx then idx else (n : Int) + idx + 1

/-- Job selection (lines 183-201): with an empty `joblist` every job runs;
otherwise the jobs whose `index_number` appears in the normalised index list
run (`with_defaults` only merges configuration defaults and is not modelled). -/
def selectJobs (jobs : List Job) (joblist : List Int) : List Job :=
  if joblist = [] then jobs
  else
    let normalized := joblist.map (normalizeIdx jobs.length)
    jobs.filter (fun j => normalized.contains (j.index_number : Int))

/-- A completed run: the per-job outcomes of the non-browser phase (in order),
the `max_workers` passed to that phase (line 213), the per-job outcomes of the
browser phase, and the `max_workers` computed for it (`none` when the browser
phase did not run). -/
structure RunOk where
  phase1 : List (Job × StepResult)
  phase1Workers : Option Nat
  phase2 : List (Job × StepResult)
  phase2Workers : Option Nat
deriving DecidableEq, Repr

/-- The observable outcome of `run_jobs`: `indexError` is raised by line 186
before anything runs; `importError` is raised by `get_virt_mem` after the
non-browser phase completed (it carries those completed outcomes); `ok` is a
completed run. -/
inductive RunOutcome
  | indexError (idx : Int) (numJobs : Nat)
  | importError (phase1 : List (Job × StepResult)) (msg : String)
  | ok (tr : RunOk)
deriving DecidableEq, Repr

/-- `run_jobs` (worker.py lines 182-232). `fetch` maps each job to the
processed state its fetch produced (jobs are shared-nothing, so the phase is
the in-order list of per-job outcomes). Control flow: validate the explicit
job indices first (line 184, raising at the first out-of-range one), select
the subset, run the non-browser jobs, then — only if browser jobs exist —
probe the memory (line 220, before the `max_workers` override is consulted on
line 221), size the pool and run the browser jobs. -/
def run_jobs (env : PsutilState) (cpuCount : Option Nat) (cfg : UrlwatchConfig)
    (jobs : List Job) (fetch : Job → JobStateIn) : RunOutcome :=
  match cfg.joblist.find? (fun idx => !inRangeB jobs.length idx) with
  | some idx => RunOutcome.indexError idx jobs.length
  | none =>
    let selected := selectJobs jobs cfg.joblist
    let p1 := (selected.filter (fun j => !j.is_browser)).map
      (fun j => (j, job_runner_step (fetch j)))
    let p2jobs := selected.filter (fun j => j.is_browser)
    if p2jobs = [] then RunOutcome.ok ⟨p1, cfg.max_workers, [], none⟩
    else
      match get_virt_mem env with
      | Except.error msg => RunOutcome.importError p1 msg
      | Except.ok virtMem =>
        let workers :=
          if truthy cfg.max_workers then cfg.max_workers.getD 0
          else min (max (virtMem / 200000000) 1) (orOne cpuCount)
        RunOutcome.ok
          ⟨p1, cfg.max_workers, p2jobs.map (fun j => (j, job_runner_step (fetch j))),
            some workers⟩

/-- The jobs a run actually executed, in execution order. -/
def RunOutcome.executed : RunOutcome → List Job
  | RunOutcome.indexError _ _ => []
  | RunOutcome.importError p1 _ => p1.map Prod.fst
  | RunOutcome.ok tr => tr.phase1.map Prod.fst ++ tr.phase2.map Prod.fst

/-- The snapshot writes a run performed (each executed job's `save` call, if
any), in execution order. -/
def RunOutcome.savesDone : RunOutcome → List (Job × SaveKind)
  | RunOutcome.indexError _ _ => []
  | RunOutcome.importError p1 _ =>
    p1.filterMap (fun p => p.2.save.map (fun s => (p.1, s)))
  | RunOutcome.ok tr =>
    (tr.phase1 ++ tr.phase2).filterMap (fun p => p.2.save.map (fun s => (p.1, s)))

/-! ### Helper lemmas about the fuzzy matcher -/

theorem pickBest_cons (w g x : String) (xs : List String) :
    pickBest w g (x :: xs) = pickBest w (if candBetter w x g then x else g) xs := rfl

theorem pickBest_mem (w g : String) (gs : List String) :
    pickBest w g gs ∈ g :: gs := by
  induction gs generalizing g with
  | nil => simp [pickBest]
  | cons x xs ih =>
    rw [pickBest_cons]
    have h := ih (if candBetter w x g then x else g)
    rw [List.mem_cons] at h ⊢
    rcases h with h | h
    · rw [h]
      by_cases hc : candBetter w x g
      · right
        simp [hc]
      · left
        simp [hc]
    · right
      exact List.mem_cons_of_mem x h

theorem ratio_le_of_candBetter_false {w x y : String} (h : candBetter w x y = false) :
    ratioQ x w ≤ ratioQ y w := by
  simp only [candBetter, Bool.or_eq_false_iff, decide_eq_false_iff_not] at h
  exact le_of_not_lt h.1

theorem ratio_le_of_candBetter_true {w x y : String} (h : candBetter w x y = true) :
    ratioQ y w ≤ ratioQ x w := by
  simp only [candBetter, Bool.or_eq_true, Bool.and_eq_true, decide_eq_true_eq] at h
  rcases h with h | ⟨h, _⟩
  · exact le_of_lt h
  · exact le_of_eq h

theorem pickBest_ratio_max (w g : String) (gs : List String) :
    ∀ x ∈ g :: gs, ratioQ x w ≤ ratioQ (pickBest w g gs) w := by
  induction gs generalizing g with
  | nil =>
    intro x hx
    rw [List.mem_singleton] at hx
    rw [hx]
    exact le_refl _
  | cons y ys ih =>
    intro x hx
    rw [pickBest_cons]
    have hg : ratioQ g w ≤ ratioQ (if candBetter w y g then y else g) w := by
      by_cases hc : candBetter w y g
      · rw [if_pos hc]
        exact ratio_le_of_candBetter_true hc
      · rw [if_neg hc]
    have hy : ratioQ y w ≤ ratioQ (if candBetter w y g then y else g) w := by
      by_cases hc : candBetter w y g
      · rw [if_pos hc]
      · rw [if_neg hc]
        exact ratio_le_of_candBetter_false (Bool.not_eq_true _ ▸ eq_false_of_ne_true hc)
    have hhead := ih (if candBetter w y g then y else g) _
      (List.mem_cons_self (if candBetter w y g then y else g) ys)
    rcases List.mem_cons.mp hx with hxg | hx2
    · rw [hxg]
      exact le_trans hg hhead
    · rcases List.mem_cons.mp hx2 with hxy | hxs
      · rw [hxy]
        exact le_trans hy hhead
      · exact ih _ x (List.mem_cons_of_mem _ hxs)

theorem get_close_matches1_eq_nil_iff (w : String) (ps : List String) :
    get_close_matches1 w ps = [] ↔ ∀ x ∈ ps, ratioQ x w < cutoff := by
  unfold get_close_matches1
  rcases hf : ps.filter (fun x => decide (cutoff ≤ ratioQ x w)) with _ | ⟨g, gs⟩
  · constructor
    · intro _ x hx
      by_contra hc
      push_neg at hc
      have hm : x ∈ ps.filter (fun x => decide (cutoff ≤ ratioQ x w)) :=
        List.mem_filter.mpr ⟨hx, by simpa using hc⟩
      rw [hf] at hm
      exact absurd hm (List.not_mem_nil x)
    · intro _
      rfl
  · constructor
    · intro h
      exact absurd h (List.cons_ne_nil _ _)
    · intro h
      have hg : g ∈ ps.filter (fun x => decide (cutoff ≤ ratioQ x w)) := by
        rw [hf]
        exact List.mem_cons_self g gs
      have hm := List.mem_filter.mp hg
      have hge : cutoff ≤ ratioQ g w := by simpa using hm.2
      exact absurd (h g hm.1) (not_lt.mpr hge)

theorem get_close_matches1_best (w : String) (ps : List String) (m : String) (ms : List String)
    (h : get_close_matches1 w ps = m :: ms) :
    m ∈ ps ∧ cutoff ≤ ratioQ m w ∧
      ∀ x ∈ ps, cutoff ≤ ratioQ x w → ratioQ x w ≤ ratioQ m w := by
  unfold get_close_matches1 at h
  rcases hf : ps.filter (fun x => decide (cutoff ≤ ratioQ x w)) with _ | ⟨g, gs⟩
  · rw [hf] at h
    simp at h
  · rw [hf] at h
    have hm : m = pickBest w g gs := by
      injection h with h1 _
      exact h1.symm
    subst hm
    have hmemf : pickBest w g gs ∈ ps.filter (fun x => decide (cutoff ≤ ratioQ x w)) := by
      rw [hf]
      exact pickBest_mem w g gs
    have hmf := List.mem_filter.mp hmemf
    refine ⟨hmf.1, by simpa using hmf.2, ?_⟩
    intro x hx hcut
    have hxf : x ∈ ps.filter (fun x => decide (cutoff ≤ ratioQ x w)) :=
      List.mem_filter.mpr ⟨hx, by simpa using hcut⟩
    rw [hf] at hxf
    exact pickBest_ratio_max w g gs x hxf

theorem lookup_isSome_of_mem_keys {m : String} {l : List (String × SnapMeta)}
    (h : m ∈ l.map Prod.fst) : (l.lookup m).isSome := by
  induction l with
  | nil => simp at h
  | cons p rest ih =>
    rw [List.map_cons, List.mem_cons] at h
    by_cases he : m = p.1
    · have hb : (m == p.1) = true := beq_iff_eq.mpr he
      simp [List.lookup, hb]
    · have hb : (m == p.1) = false := by
        simp [he]
      have h2 : m ∈ rest.map Prod.fst := by
        rcases h with h | h
        · exact absurd h he
        · exact h
      rw [List.lookup, hb]
      exact ih h2


/-! ### Branch reduction lemmas for `job_runner_step`

Each lemma restates one top-level branch of the classifier as a definitional
equality, so the claim proofs below only reason about the remaining guards. -/

theorem job_runner_step_ignored (mt : Option Nat) (ek : ExcKind) (tr : Nat) (od : String)
    (ots : Int) (oe nd : String) (hist : List (String × SnapMeta)) :
    job_runner_step ⟨mt, some ek, true, tr, od, ots, oe, nd, hist⟩ =
      ⟨none, none, tr, od, ots, oe⟩ := rfl

theorem job_runner_step_notModified (mt : Option Nat) (tr : Nat) (od : String) (ots : Int)
    (oe nd : String) (hist : List (String × SnapMeta)) :
    job_runner_step ⟨mt, some ExcKind.notModified, false, tr, od, ots, oe, nd, hist⟩ =
      if 0 < tr then ⟨some Verb.unchanged, some SaveKind.useOldData, 0, od, ots, oe⟩
      else ⟨some Verb.unchanged, none, tr, od, ots, oe⟩ := rfl

theorem job_runner_step_other (mt : Option Nat) (tr : Nat) (od : String) (ots : Int)
    (oe nd : String) (hist : List (String × SnapMeta)) :
    job_runner_step ⟨mt, some ExcKind.other, false, tr, od, ots, oe, nd, hist⟩ =
      if tr < mt.getD 0 then ⟨none, some SaveKind.useOldData, tr, od, ots, oe⟩
      else ⟨some Verb.error, some SaveKind.useOldData, tr, od, ots, oe⟩ := rfl

theorem job_runner_step_success (mt : Option Nat) (ign : Bool) (tr : Nat) (od : String)
    (ots : Int) (oe nd : String) (hist : List (String × SnapMeta)) :
    job_runner_step ⟨mt, none, ign, tr, od, ots, oe, nd, hist⟩ =
      if od ≠ "" ∨ ots ≠ 0 then
        if nd = od ∨ nd ∈ hist.map Prod.fst then
          if 0 < tr then ⟨some Verb.unchanged, some SaveKind.newData, 0, od, ots, oe⟩
          else ⟨some Verb.unchanged, none, tr, od, ots, oe⟩
        else
          if 1 < hist.length then
            match get_close_matches1 nd (hist.map Prod.fst) with
            | [] => ⟨some Verb.changed, some SaveKind.newData, 0, od, ots, oe⟩
            | m :: _ =>
              ⟨some Verb.changed, some SaveKind.newData, 0, m,
                ((hist.lookup m).getD ⟨0, ""⟩).timestamp, ((hist.lookup m).getD ⟨0, ""⟩).etag⟩
          else ⟨some Verb.changed, some SaveKind.newData, 0, od, ots, oe⟩
      else ⟨some Verb.new, some SaveKind.newData, 0, od, ots, oe⟩ := rfl

/-! ### Claim theorems -/

/-- C1: for a job whose fetch ended with a non-ignored exception that is not a
`NotModifiedError`, with `tries` incremented by the fetch step to
`stored + 1`, the run reports an `error` iff `stored + 1 ≥ max_tries` (an
unset or zero `max_tries` always reports, since `maxTriesOf` is then `0`);
otherwise the failure is suppressed: old data is re-saved with the
incremented `tries` and nothing is surfaced to reporting. -/
theorem claim_C1_retry_policy (js : JobStateIn) (stored : Nat)
    (hexc : js.exception = some ExcKind.other)
    (hign : js.error_ignored = false)
    (htries : js.tries = processTries stored js.exception js.error_ignored) :
    ((job_runner_step js).report = some Verb.error ↔ maxTriesOf js ≤ stored + 1) ∧
    (stored + 1 < maxTriesOf js →
      (job_runner_step js).report = none ∧
      (job_runner_step js).save = some SaveKind.useOldData ∧
      (job_runner_step js).tries = stored + 1) := by
  obtain ⟨mt, exc, ign, tr, od, ots, oe, nd, hist⟩ := js
  replace hexc : exc = some ExcKind.other := hexc
  subst hexc
  replace hign : ign = false := hign
  subst hign
  replace htries : tr = stored + 1 := by simpa [processTries] using htries
  subst htries
  have hmax : maxTriesOf ⟨mt, some ExcKind.other, false, stored + 1, od, ots, oe, nd, hist⟩
      = mt.getD 0 := rfl
  rw [hmax, job_runner_step_other]
  by_cases hlt : stored + 1 < mt.getD 0
  · rw [if_pos hlt]
    refine ⟨?_, fun _ => ⟨rfl, rfl, rfl⟩⟩
    constructor
    · intro h
      exact Option.noConfusion h
    · intro h
      omega
  · rw [if_neg hlt]
    refine ⟨⟨fun _ => by omega, fun _ => rfl⟩, fun h => absurd h hlt⟩

theorem claim_C1_retry_policy_witness :
    ((job_runner_step ⟨some 3, some ExcKind.other, false, 1, "old", 5, "e", "x", []⟩).report
        = some Verb.error ↔
      maxTriesOf ⟨some 3, some ExcKind.other, false, 1, "old", 5, "e", "x", []⟩ ≤ 0 + 1) ∧
    (0 + 1 < maxTriesOf ⟨some 3, some ExcKind.other, false, 1, "old", 5, "e", "x", []⟩ →
      (job_runner_step ⟨some 3, some ExcKind.other, false, 1, "old", 5, "e", "x", []⟩).report
          = none ∧
      (job_runner_step ⟨some 3, some ExcKind.other, false, 1, "old", 5, "e", "x", []⟩).save
          = some SaveKind.useOldData ∧
      (job_runner_step ⟨some 3, some ExcKind.other, false, 1, "old", 5, "e", "x", []⟩).tries
          = 0 + 1) :=
  claim_C1_retry_policy ⟨some 3, some ExcKind.other, false, 1, "old", 5, "e", "x", []⟩ 0
    rfl rfl rfl

/-- C3: a successful fetch whose new data exactly equals the previous
snapshot's data or the data of any snapshot in the deduplicated history is
classified `unchanged` (in particular not `changed`), and `tries` ends at 0. -/
theorem claim_C3_exact_match_unchanged (js : JobStateIn)
    (hexc : js.exception = none)
    (hhist : js.old_data ≠ "" ∨ js.old_timestamp ≠ 0)
    (hmatch : js.new_data = js.old_data ∨ js.new_data ∈ js.history.map Prod.fst) :
    (job_runner_step js).report = some Verb.unchanged ∧
    (job_runner_step js).report ≠ some Verb.changed ∧
    (job_runner_step js).tries = 0 := by
  obtain ⟨mt, exc, ign, tr, od, ots, oe, nd, hist⟩ := js
  replace hexc : exc = none := hexc
  subst hexc
  replace hhist : od ≠ "" ∨ ots ≠ 0 := hhist
  replace hmatch : nd = od ∨ nd ∈ hist.map Prod.fst := hmatch
  rw [job_runner_step_success, if_pos hhist, if_pos hmatch]
  by_cases h0 : 0 < tr
  · rw [if_pos h0]
    exact ⟨rfl, fun h => Verb.noConfusion (Option.some.inj h), rfl⟩
  · rw [if_neg h0]
    exact ⟨rfl, fun h => Verb.noConfusion (Option.some.inj h), Nat.eq_zero_of_not_pos h0⟩

theorem claim_C3_exact_match_unchanged_witness :
    (job_runner_step ⟨none, none, false, 2, "b", 9, "e", "a",
        [("b", ⟨9, "e"⟩), ("a", ⟨3, "d"⟩)]⟩).report = some Verb.unchanged ∧
    (job_runner_step ⟨none, none, false, 2, "b", 9, "e", "a",
        [("b", ⟨9, "e"⟩), ("a", ⟨3, "d"⟩)]⟩).report ≠ some Verb.changed ∧
    (job_runner_step ⟨none, none, false, 2, "b", 9, "e", "a",
        [("b", ⟨9, "e"⟩), ("a", ⟨3, "d"⟩)]⟩).tries = 0 :=
  claim_C3_exact_match_unchanged
    ⟨none, none, false, 2, "b", 9, "e", "a", [("b", ⟨9, "e"⟩), ("a", ⟨3, "d"⟩)]⟩
    rfl (by decide) (by decide)

/-- C5 as stated is too strong: on a `NotModifiedError` with the stored
`tries` counter already 0, `job_runner` performs no save at all (worker.py
line 110 guards the save behind `tries > 0`), so "the previous data is
persisted" fails at this concrete input although the job is reported
`unchanged`. -/
theorem claim_C5_counterexample :
    (job_runner_step ⟨none, some ExcKind.notModified, false,
        processTries 0 (some ExcKind.notModified) false, "prev", 100, "e", "", []⟩).report
      = some Verb.unchanged ∧
    (job_runner_step ⟨none, some ExcKind.notModified, false,
        processTries 0 (some ExcKind.notModified) false, "prev", 100, "e", "", []⟩).save
      = none := by
  decide

/-- C5 amended: a job whose fetch raised `NotModifiedError` is reported
`unchanged` and its `tries` counter ends at 0; the previous data is re-saved
(with the reset counter) exactly when the stored `tries` counter was positive
— when it was already 0 nothing is written. -/
theorem claim_C5_not_modified (js : JobStateIn) (stored : Nat)
    (hexc : js.exception = some ExcKind.notModified)
    (hign : js.error_ignored = false)
    (htries : js.tries = processTries stored js.exception js.error_ignored) :
    (job_runner_step js).report = some Verb.unchanged ∧
    (job_runner_step js).tries = 0 ∧
    (0 < stored → (job_runner_step js).save = some SaveKind.useOldData) ∧
    (stored = 0 → (job_runner_step js).save = none) := by
  obtain ⟨mt, exc, ign, tr, od, ots, oe, nd, hist⟩ := js
  replace hexc : exc = some ExcKind.notModified := hexc
  subst hexc
  replace hign : ign = false := hign
  subst hign
  replace htries : tr = stored := by simpa [processTries] using htries
  rw [job_runner_step_notModified]
  by_cases h0 : 0 < tr
  · rw [if_pos h0]
    exact ⟨rfl, rfl, fun _ => rfl, fun h => absurd h (by omega)⟩
  · rw [if_neg h0]
    exact ⟨rfl, (by omega : tr = 0), fun h => absurd h (by omega), fun _ => rfl⟩

theorem claim_C5_not_modified_witness :
    (job_runner_step ⟨none, some ExcKind.notModified, false, 2, "prev", 100, "e", "", []⟩).report
      = some Verb.unchanged ∧
    (job_runner_step ⟨none, some ExcKind.notModified, false, 2, "prev", 100, "e", "", []⟩).tries
      = 0 ∧
    (0 < 2 →
      (job_runner_step ⟨none, some ExcKind.notModified, false, 2, "prev", 100, "e", "", []⟩).save
        = some SaveKind.useOldData) ∧
    (2 = 0 →
      (job_runner_step ⟨none, some ExcKind.notModified, false, 2, "prev", 100, "e", "", []⟩).save
        = none) :=
  claim_C5_not_modified ⟨none, some ExcKind.notModified, false, 2, "prev", 100, "e", "", []⟩ 2
    rfl rfl rfl

/-- C9: a job classified `unchanged` — by exact match or by
`NotModifiedError` — whose `tries` counter is already 0 triggers no save at
all: nothing is written to the snapshot store for that job in that run. -/
theorem claim_C9_unchanged_no_save (js : JobStateIn)
    (h0 : js.tries = 0)
    (hcls : (js.exception = some ExcKind.notModified ∧ js.error_ignored = false) ∨
            (js.exception = none ∧ (js.old_data ≠ "" ∨ js.old_timestamp ≠ 0) ∧
              (js.new_data = js.old_data ∨ js.new_data ∈ js.history.map Prod.fst))) :
    (job_runner_step js).save = none ∧
    (job_runner_step js).report = some Verb.unchanged := by
  obtain ⟨mt, exc, ign, tr, od, ots, oe, nd, hist⟩ := js
  replace h0 : tr = 0 := h0
  subst h0
  rcases hcls with ⟨hexc, hign⟩ | ⟨hexc, hhist, hmatch⟩
  · replace hexc : exc = some ExcKind.notModified := hexc
    subst hexc
    replace hign : ign = false := hign
    subst hign
    rw [job_runner_step_notModified, if_neg (by omega : ¬ 0 < 0)]
    exact ⟨rfl, rfl⟩
  · replace hexc : exc = none := hexc
    subst hexc
    replace hhist : od ≠ "" ∨ ots ≠ 0 := hhist
    replace hmatch : nd = od ∨ nd ∈ hist.map Prod.fst := hmatch
    rw [job_runner_step_success, if_pos hhist, if_pos hmatch, if_neg (by omega : ¬ 0 < 0)]
    exact ⟨rfl, rfl⟩

theorem claim_C9_unchanged_no_save_witness :
    (job_runner_step ⟨some 2, none, false, 0, "b", 9, "e", "b",
        [("b", ⟨9, "e"⟩)]⟩).save = none ∧
    (job_runner_step ⟨some 2, none, false, 0, "b", 9, "e", "b",
        [("b", ⟨9, "e"⟩)]⟩).report = some Verb.unchanged :=
  claim_C9_unchanged_no_save ⟨some 2, none, false, 0, "b", 9, "e", "b", [("b", ⟨9, "e"⟩)]⟩
    rfl (Or.inr ⟨rfl, by decide, by decide⟩)


/-- With a successful fetch and history present (worker.py line 130 true),
the classifier never reports `new`: the branch only produces `unchanged` or
`changed`. -/
theorem report_ne_new_of_hist (js : JobStateIn)
    (hexc : js.exception = none)
    (hhist : js.old_data ≠ "" ∨ js.old_timestamp ≠ 0) :
    (job_runner_step js).report ≠ some Verb.new := by
  obtain ⟨mt, exc, ign, tr, od, ots, oe, nd, hist⟩ := js
  replace hexc : exc = none := hexc
  subst hexc
  replace hhist : od ≠ "" ∨ ots ≠ 0 := hhist
  rw [job_runner_step_success, if_pos hhist]
  split
  · split
    · exact fun h => Verb.noConfusion (Option.some.inj h)
    · exact fun h => Verb.noConfusion (Option.some.inj h)
  · split
    · split
      · exact fun h => Verb.noConfusion (Option.some.inj h)
      · exact fun h => Verb.noConfusion (Option.some.inj h)
    · exact fun h => Verb.noConfusion (Option.some.inj h)

/-- C2: on a successful fetch with history present and no exact match
anywhere, the job is classified `changed`, `tries` resets to 0 and the new
data is saved; when the deduplicated history holds more than one snapshot,
the single best fuzzy match above the fixed cutoff (largest similarity ratio
over the history keys, difflib `n=1` semantics) replaces the comparison
baseline's data, timestamp and etag; when no history key reaches the cutoff,
or the history holds at most one snapshot, the baseline stays the
immediately-previous snapshot. -/
theorem claim_C2_fuzzy_baseline (js : JobStateIn)
    (hexc : js.exception = none)
    (hhist : js.old_data ≠ "" ∨ js.old_timestamp ≠ 0)
    (hnom : ¬ (js.new_data = js.old_data ∨ js.new_data ∈ js.history.map Prod.fst)) :
    (job_runner_step js).report = some Verb.changed ∧
    (job_runner_step js).tries = 0 ∧
    (job_runner_step js).save = some SaveKind.newData ∧
    (1 < js.history.length →
      (get_close_matches1 js.new_data (js.history.map Prod.fst) = [] →
        (∀ x ∈ js.history.map Prod.fst, ratioQ x js.new_data < cutoff) ∧
        (job_runner_step js).old_data = js.old_data ∧
        (job_runner_step js).old_timestamp = js.old_timestamp ∧
        (job_runner_step js).old_etag = js.old_etag) ∧
      (∀ m ms, get_close_matches1 js.new_data (js.history.map Prod.fst) = m :: ms →
        m ∈ js.history.map Prod.fst ∧
        cutoff ≤ ratioQ m js.new_data ∧
        (∀ x ∈ js.history.map Prod.fst,
          cutoff ≤ ratioQ x js.new_data → ratioQ x js.new_data ≤ ratioQ m js.new_data) ∧
        (job_runner_step js).old_data = m ∧
        (js.history.lookup m).isSome = true ∧
        (∀ meta, js.history.lookup m = some meta →
          (job_runner_step js).old_timestamp = meta.timestamp ∧
          (job_runner_step js).old_etag = meta.etag))) ∧
    (¬ 1 < js.history.length →
      (job_runner_step js).old_data = js.old_data ∧
      (job_runner_step js).old_timestamp = js.old_timestamp ∧
      (job_runner_step js).old_etag = js.old_etag) := by
  obtain ⟨mt, exc, ign, tr, od, ots, oe, nd, hist⟩ := js
  replace hexc : exc = none := hexc
  subst hexc
  replace hhist : od ≠ "" ∨ ots ≠ 0 := hhist
  replace hnom : ¬ (nd = od ∨ nd ∈ hist.map Prod.fst) := hnom
  rw [job_runner_step_success, if_pos hhist, if_neg hnom]
  by_cases hlen : 1 < hist.length
  · rw [if_pos hlen]
    rcases hg : get_close_matches1 nd (hist.map Prod.fst) with _ | ⟨m, ms⟩
    · refine ⟨rfl, rfl, rfl, fun _ => ⟨fun _ => ?_, fun m' ms' hg2 => ?_⟩,
        fun h => absurd hlen h⟩
      · exact ⟨(get_close_matches1_eq_nil_iff nd (hist.map Prod.fst)).mp hg, rfl, rfl, rfl⟩
      · exact absurd hg2.symm (List.cons_ne_nil m' ms')
    · obtain ⟨hmem, hcut, hmax⟩ := get_close_matches1_best nd (hist.map Prod.fst) m ms hg
      refine ⟨rfl, rfl, rfl, fun _ => ⟨fun h => ?_, fun m' ms' hg2 => ?_⟩,
        fun h => absurd hlen h⟩
      · exact absurd h (List.cons_ne_nil m ms)
      · have heq : m :: ms = m' :: ms' := hg2
        injection heq with h1 _
        subst h1
        refine ⟨hmem, hcut, hmax, rfl, lookup_isSome_of_mem_keys hmem, fun meta hmeta => ?_⟩
        constructor
        · show ((hist.lookup m).getD ⟨0, ""⟩).timestamp = meta.timestamp
          rw [hmeta]
          rfl
        · show ((hist.lookup m).getD ⟨0, ""⟩).etag = meta.etag
          rw [hmeta]
          rfl
  · rw [if_neg hlen]
    exact ⟨rfl, rfl, rfl, fun h => absurd h hlen, fun _ => ⟨rfl, rfl, rfl⟩⟩

theorem claim_C2_fuzzy_baseline_witness :
    (job_runner_step ⟨none, none, false, 3, "zz", 9, "e9", "abd",
        [("zz", ⟨9, "e9"⟩), ("abc", ⟨3, "e3"⟩)]⟩).report = some Verb.changed ∧
    (job_runner_step ⟨none, none, false, 3, "zz", 9, "e9", "abd",
        [("zz", ⟨9, "e9"⟩), ("abc", ⟨3, "e3"⟩)]⟩).tries = 0 ∧
    (job_runner_step ⟨none, none, false, 3, "zz", 9, "e9", "abd",
        [("zz", ⟨9, "e9"⟩), ("abc", ⟨3, "e3"⟩)]⟩).save = some SaveKind.newData ∧
    (1 < ([("zz", (⟨9, "e9"⟩ : SnapMeta)), ("abc", ⟨3, "e3"⟩)]).length →
      (get_close_matches1 "abd" (([("zz", (⟨9, "e9"⟩ : SnapMeta)), ("abc", ⟨3, "e3"⟩)]).map Prod.fst) = [] →
        (∀ x ∈ ([("zz", (⟨9, "e9"⟩ : SnapMeta)), ("abc", ⟨3, "e3"⟩)]).map Prod.fst,
          ratioQ x "abd" < cutoff) ∧
        (job_runner_step ⟨none, none, false, 3, "zz", 9, "e9", "abd",
            [("zz", ⟨9, "e9"⟩), ("abc", ⟨3, "e3"⟩)]⟩).old_data = "zz" ∧
        (job_runner_step ⟨none, none, false, 3, "zz", 9, "e9", "abd",
            [("zz", ⟨9, "e9"⟩), ("abc", ⟨3, "e3"⟩)]⟩).old_timestamp = 9 ∧
        (job_runner_step ⟨none, none, false, 3, "zz", 9, "e9", "abd",
            [("zz", ⟨9, "e9"⟩), ("abc", ⟨3, "e3"⟩)]⟩).old_etag = "e9") ∧
      (∀ m ms,
        get_close_matches1 "abd" (([("zz", (⟨9, "e9"⟩ : SnapMeta)), ("abc", ⟨3, "e3"⟩)]).map Prod.fst)
            = m :: ms →
        m ∈ ([("zz", (⟨9, "e9"⟩ : SnapMeta)), ("abc", ⟨3, "e3"⟩)]).map Prod.fst ∧
        cutoff ≤ ratioQ m "abd" ∧
        (∀ x ∈ ([("zz", (⟨9, "e9"⟩ : SnapMeta)), ("abc", ⟨3, "e3"⟩)]).map Prod.fst,
          cutoff ≤ ratioQ x "abd" → ratioQ x "abd" ≤ ratioQ m "abd") ∧
        (job_runner_step ⟨none, none, false, 3, "zz", 9, "e9", "abd",
            [("zz", ⟨9, "e9"⟩), ("abc", ⟨3, "e3"⟩)]⟩).old_data = m ∧
        (([("zz", (⟨9, "e9"⟩ : SnapMeta)), ("abc", ⟨3, "e3"⟩)]).lookup m).isSome = true ∧
        (∀ meta, ([("zz", (⟨9, "e9"⟩ : SnapMeta)), ("abc", ⟨3, "e3"⟩)]).lookup m = some meta →
          (job_runner_step ⟨none, none, false, 3, "zz", 9, "e9", "abd",
              [("zz", ⟨9, "e9"⟩), ("abc", ⟨3, "e3"⟩)]⟩).old_timestamp = meta.timestamp ∧
          (job_runner_step ⟨none, none, false, 3, "zz", 9, "e9", "abd",
              [("zz", ⟨9, "e9"⟩), ("abc", ⟨3, "e3"⟩)]⟩).old_etag = meta.etag))) ∧
    (¬ 1 < ([("zz", (⟨9, "e9"⟩ : SnapMeta)), ("abc", ⟨3, "e3"⟩)]).length →
      (job_runner_step ⟨none, none, false, 3, "zz", 9, "e9", "abd",
          [("zz", ⟨9, "e9"⟩), ("abc", ⟨3, "e3"⟩)]⟩).old_data = "zz" ∧
      (job_runner_step ⟨none, none, false, 3, "zz", 9, "e9", "abd",
          [("zz", ⟨9, "e9"⟩), ("abc", ⟨3, "e3"⟩)]⟩).old_timestamp = 9 ∧
      (job_runner_step ⟨none, none, false, 3, "zz", 9, "e9", "abd",
          [("zz", ⟨9, "e9"⟩), ("abc", ⟨3, "e3"⟩)]⟩).old_etag = "e9") :=
  claim_C2_fuzzy_baseline
    ⟨none, none, false, 3, "zz", 9, "e9", "abd", [("zz", ⟨9, "e9"⟩), ("abc", ⟨3, "e3"⟩)]⟩
    rfl (by decide) (by decide)

/-- C4 as stated fails at one degenerate store state: the history consisting
of the single snapshot `("", 0, 0, "")` is nonempty (a prior snapshot exists,
and its timestamp is 0), yet the worker classifies the job `new`, because the
zero-value tuple that `load` returns for it is exactly the no-history
sentinel and line 130 only inspects `old_data` and `old_timestamp`. -/
theorem claim_C4_counterexample :
    ([(⟨"", 0, 0, ""⟩ : Snapshot)] ≠ ([] : List Snapshot)) ∧
    (⟨"", 0, 0, ""⟩ : Snapshot).timestamp = 0 ∧
    (job_runner_step (jobStateOfLoad [⟨"", 0, 0, ""⟩] "x" none)).report = some Verb.new := by
  refine ⟨List.cons_ne_nil _ _, rfl, ?_⟩
  decide

/-- C4 amended: a successful fetch classifies `new` — with `tries` reset to 0
and the new data saved — iff the loaded snapshot equals the zero-value
no-history tuple: either no prior snapshot exists, or the stored snapshot
degenerately has empty data and timestamp 0. In particular a snapshot with
timestamp 0 but nonempty data still counts as history and is not classified
`new`. -/
theorem claim_C4_new_iff_no_history (hist : List Snapshot) (nd : String) (mt : Option Nat) :
    ((job_runner_step (jobStateOfLoad hist nd mt)).report = some Verb.new ↔ loadIsZero hist) ∧
    ((job_runner_step (jobStateOfLoad hist nd mt)).report = some Verb.new →
      (job_runner_step (jobStateOfLoad hist nd mt)).tries = 0 ∧
      (job_runner_step (jobStateOfLoad hist nd mt)).save = some SaveKind.newData) := by
  rcases hist with _ | ⟨s, rest⟩
  · have h1 : jobStateOfLoad [] nd mt = ⟨mt, none, false, 0, "", 0, "", nd, []⟩ := rfl
    rw [h1, job_runner_step_success, if_neg (by simp)]
    exact ⟨⟨fun _ => trivial, fun _ => rfl⟩, fun _ => ⟨rfl, rfl⟩⟩
  · have h1 : jobStateOfLoad (s :: rest) nd mt =
        ⟨mt, none, false, s.tries, s.data, s.timestamp, s.etag, nd, histDic (s :: rest)⟩ := rfl
    by_cases hz : s.data = "" ∧ s.timestamp = 0
    · rw [h1, job_runner_step_success, if_neg (by simp [hz.1, hz.2])]
      exact ⟨⟨fun _ => hz, fun _ => rfl⟩, fun _ => ⟨rfl, rfl⟩⟩
    · have hhist : s.data ≠ "" ∨ s.timestamp ≠ 0 := not_and_or.mp hz
      have hne : (job_runner_step (jobStateOfLoad (s :: rest) nd mt)).report ≠ some Verb.new := by
        refine report_ne_new_of_hist (jobStateOfLoad (s :: rest) nd mt) rfl ?_
        exact hhist
      exact ⟨⟨fun h => absurd h hne, fun h => absurd h hz⟩, fun h => absurd h hne⟩

/-- Mapping a list to `(j, f j)` pairs and projecting the first components
gives the list back (phase outcomes are joined to their originating jobs). -/
theorem map_fst_map_pair {α β : Type} (f : α → β) (l : List α) :
    (l.map (fun j => (j, f j))).map Prod.fst = l := by
  induction l with
  | nil => rfl
  | cons x xs ih => simp [ih]

theorem contains_of_mem {a : Int} {l : List Int} (h : a ∈ l) : l.contains a = true := by
  simpa [List.contains] using h

/-- C6: with an explicit job-index filter, any index outside
`[-n, -1] ∪ [1, n]` makes the run raise `IndexError` (carrying the offending
index) before any job executes and before any snapshot is written; a negative
in-range index `idx` normalises to the 1-based position `n + idx + 1`, i.e.
selects the job counted from the end of the list. -/
theorem claim_C6_index_filter (env : PsutilState) (cpu : Option Nat)
    (cfg : UrlwatchConfig) (jobs : List Job) (fetch : Job → JobStateIn)
    (hne : cfg.joblist ≠ []) :
    ((∃ idx ∈ cfg.joblist, inRangeB jobs.length idx = false) →
      (∃ idx, inRangeB jobs.length idx = false ∧
        run_jobs env cpu cfg jobs fetch = RunOutcome.indexError idx jobs.length) ∧
      (run_jobs env cpu cfg jobs fetch).executed = [] ∧
      (run_jobs env cpu cfg jobs fetch).savesDone = []) ∧
    (∀ idx ∈ cfg.joblist, idx < 0 →
      normalizeIdx jobs.length idx = (jobs.length : Int) + idx + 1) ∧
    (∀ idx ∈ cfg.joblist, idx < 0 → ∀ (k : Nat) (hk : k < jobs.length),
      (k : Int) + 1 = (jobs.length : Int) + idx + 1 →
      (jobs.get ⟨k, hk⟩).index_number = k + 1 →
      jobs.get ⟨k, hk⟩ ∈ selectJobs jobs cfg.joblist) := by
  refine ⟨?_, ?_, ?_⟩
  · intro hbad
    have hsome : ∃ idx, cfg.joblist.find? (fun idx => !inRangeB jobs.length idx) = some idx := by
      rcases hbad with ⟨idx, hmem, hfalse⟩
      rcases hf : cfg.joblist.find? (fun idx => !inRangeB jobs.length idx) with _ | found
      · have hall := List.find?_eq_none.mp hf idx hmem
        rw [hfalse] at hall
        exact absurd rfl hall
      · exact ⟨found, rfl⟩
    rcases hsome with ⟨idx, hf⟩
    have hfalse : inRangeB jobs.length idx = false := by
      have := List.find?_some hf
      simpa using this
    have hrun : run_jobs env cpu cfg jobs fetch = RunOutcome.indexError idx jobs.length := by
      unfold run_jobs
      rw [hf]
    exact ⟨⟨idx, hfalse, hrun⟩, by rw [hrun]; rfl, by rw [hrun]; rfl⟩
  · intro idx _ hneg
    unfold normalizeIdx
    rw [if_neg (by omega)]
  · intro idx hmem hneg k hk hpos hidx
    unfold selectJobs
    rw [if_neg hne]
    refine List.mem_filter.mpr ⟨List.get_mem jobs k hk, ?_⟩
    have hnorm : normalizeIdx jobs.length idx = ((jobs.get ⟨k, hk⟩).index_number : Int) := by
      unfold normalizeIdx
      rw [if_neg (by omega), hidx]
      push_cast
      omega
    refine contains_of_mem ?_
    rw [← hnorm]
    exact List.mem_map_of_mem (normalizeIdx jobs.length) hmem

theorem claim_C6_index_filter_witness :
    ((∃ idx ∈ ([-1, 5] : List Int), inRangeB ([⟨1, false⟩, ⟨2, true⟩] : List Job).length idx = false) →
      (∃ idx, inRangeB ([⟨1, false⟩, ⟨2, true⟩] : List Job).length idx = false ∧
        run_jobs (PsutilState.available 0) none ⟨[-1, 5], none⟩ [⟨1, false⟩, ⟨2, true⟩]
            (fun _ => ⟨none, none, false, 0, "", 0, "", "x", []⟩)
          = RunOutcome.indexError idx ([⟨1, false⟩, ⟨2, true⟩] : List Job).length) ∧
      (run_jobs (PsutilState.available 0) none ⟨[-1, 5], none⟩ [⟨1, false⟩, ⟨2, true⟩]
          (fun _ => ⟨none, none, false, 0, "", 0, "", "x", []⟩)).executed = [] ∧
      (run_jobs (PsutilState.available 0) none ⟨[-1, 5], none⟩ [⟨1, false⟩, ⟨2, true⟩]
          (fun _ => ⟨none, none, false, 0, "", 0, "", "x", []⟩)).savesDone = []) ∧
    (∀ idx ∈ (⟨[-1, 5], none⟩ : UrlwatchConfig).joblist, idx < 0 →
      normalizeIdx ([⟨1, false⟩, ⟨2, true⟩] : List Job).length idx
        = (([⟨1, false⟩, ⟨2, true⟩] : List Job).length : Int) + idx + 1) ∧
    (∀ idx ∈ (⟨[-1, 5], none⟩ : UrlwatchConfig).joblist, idx < 0 →
      ∀ (k : Nat) (hk : k < ([⟨1, false⟩, ⟨2, true⟩] : List Job).length),
      (k : Int) + 1 = (([⟨1, false⟩, ⟨2, true⟩] : List Job).length : Int) + idx + 1 →
      (([⟨1, false⟩, ⟨2, true⟩] : List Job).get ⟨k, hk⟩).index_number = k + 1 →
      ([⟨1, false⟩, ⟨2, true⟩] : List Job).get ⟨k, hk⟩
        ∈ selectJobs [⟨1, false⟩, ⟨2, true⟩] (⟨[-1, 5], none⟩ : UrlwatchConfig).joblist) :=
  claim_C6_index_filter (PsutilState.available 0) none ⟨[-1, 5], none⟩ [⟨1, false⟩, ⟨2, true⟩]
    (fun _ => ⟨none, none, false, 0, "", 0, "", "x", []⟩) (by decide)

/-- A validated job list produces no `IndexError`: the index scan of line 184
finds nothing. -/
theorem find_bad_eq_none (joblist : List Int) (n : Nat)
    (hvalid : ∀ idx ∈ joblist, inRangeB n idx = true) :
    joblist.find? (fun idx => !inRangeB n idx) = none := by
  rw [List.find?_eq_none]
  intro idx hmem
  rw [hvalid idx hmem]
  simp

/-- C7: a validated run partitions the selected jobs into two ordered phases —
all non-browser jobs first, all browser jobs second (together a permutation of
the selection) — and when browser jobs exist and no explicit `max_workers`
override is set, the browser-phase worker count is
`max(virt_mem / 200e6, 1)` clamped from above by the CPU count. -/
theorem claim_C7_two_phases_pool_size (m cpu : Nat) (cfg : UrlwatchConfig)
    (jobs : List Job) (fetch : Job → JobStateIn)
    (hvalid : ∀ idx ∈ cfg.joblist, inRangeB jobs.length idx = true)
    (hcpu : 0 < cpu) :
    ∃ tr, run_jobs (PsutilState.available m) (some cpu) cfg jobs fetch = RunOutcome.ok tr ∧
      tr.phase1.map Prod.fst = (selectJobs jobs cfg.joblist).filter (fun j => !j.is_browser) ∧
      tr.phase2.map Prod.fst = (selectJobs jobs cfg.joblist).filter (fun j => j.is_browser) ∧
      (tr.phase1.map Prod.fst ++ tr.phase2.map Prod.fst).Perm (selectJobs jobs cfg.joblist) ∧
      ((selectJobs jobs cfg.joblist).filter (fun j => j.is_browser) ≠ [] →
        truthy cfg.max_workers = false →
        tr.phase2Workers = some (min (max (m / 200000000) 1) cpu)) := by
  have hfind := find_bad_eq_none cfg.joblist jobs.length hvalid
  have hperm : ((selectJobs jobs cfg.joblist).filter (fun j => !j.is_browser) ++
      (selectJobs jobs cfg.joblist).filter (fun j => j.is_browser)).Perm
      (selectJobs jobs cfg.joblist) := by
    have h := List.filter_append_perm (fun j => !j.is_browser) (selectJobs jobs cfg.joblist)
    simpa [Bool.not_not] using h
  have horone : orOne (some cpu) = cpu := by
    cases cpu with
    | zero => exact absurd hcpu (by omega)
    | succ n => rfl
  unfold run_jobs
  rw [hfind]
  by_cases hp2 : (selectJobs jobs cfg.joblist).filter (fun j => j.is_browser) = []
  · rw [if_pos hp2]
    refine ⟨_, rfl, map_fst_map_pair _ _, ?_, ?_, fun h => absurd hp2 h⟩
    · exact hp2.symm
    · rw [map_fst_map_pair]
      show ((selectJobs jobs cfg.joblist).filter (fun j => !j.is_browser) ++
        ([] : List (Job × StepResult)).map Prod.fst).Perm (selectJobs jobs cfg.joblist)
      rw [show (([] : List (Job × StepResult)).map Prod.fst) = [] from rfl, ← hp2]
      exact hperm
  · rw [if_neg hp2]
    refine ⟨_, rfl, map_fst_map_pair _ _, map_fst_map_pair _ _, ?_, fun _ hw => ?_⟩
    · rw [map_fst_map_pair, map_fst_map_pair]
      exact hperm
    · have hif : (if truthy cfg.max_workers then cfg.max_workers.getD 0
          else min (max (m / 200000000) 1) (orOne (some cpu)))
          = min (max (m / 200000000) 1) cpu := by
        rw [if_neg (by rw [hw]; exact Bool.false_ne_true), horone]
      exact congrArg some hif

theorem claim_C7_two_phases_pool_size_witness :
    ∃ tr, run_jobs (PsutilState.available 500000000) (some 2) ⟨[], none⟩
        [⟨1, false⟩, ⟨2, true⟩] (fun _ => ⟨none, none, false, 0, "", 0, "", "x", []⟩)
        = RunOutcome.ok tr ∧
      tr.phase1.map Prod.fst
        = (selectJobs [⟨1, false⟩, ⟨2, true⟩] (⟨[], none⟩ : UrlwatchConfig).joblist).filter
            (fun j => !j.is_browser) ∧
      tr.phase2.map Prod.fst
        = (selectJobs [⟨1, false⟩, ⟨2, true⟩] (⟨[], none⟩ : UrlwatchConfig).joblist).filter
            (fun j => j.is_browser) ∧
      (tr.phase1.map Prod.fst ++ tr.phase2.map Prod.fst).Perm
        (selectJobs [⟨1, false⟩, ⟨2, true⟩] (⟨[], none⟩ : UrlwatchConfig).joblist) ∧
      ((selectJobs [⟨1, false⟩, ⟨2, true⟩] (⟨[], none⟩ : UrlwatchConfig).joblist).filter
          (fun j => j.is_browser) ≠ [] →
        truthy (⟨[], none⟩ : UrlwatchConfig).max_workers = false →
        tr.phase2Workers = some (min (max (500000000 / 200000000) 1) 2)) :=
  claim_C7_two_phases_pool_size 500000000 2 ⟨[], none⟩ [⟨1, false⟩, ⟨2, true⟩]
    (fun _ => ⟨none, none, false, 0, "", 0, "", "x", []⟩)
    (fun idx h => absurd h (List.not_mem_nil idx)) (by decide)

/-- C8: when the `psutil` import failed and the (validated) selection contains
at least one browser job, the run raises the descriptive `ImportError` — but
only after the whole non-browser phase completed, whose outcomes the error
path retains; a run whose selection has no browser job never raises it. -/
theorem claim_C8_probe_missing_fail_fast (msg : String) (cpu : Option Nat)
    (cfg : UrlwatchConfig) (jobs : List Job) (fetch : Job → JobStateIn)
    (hvalid : ∀ idx ∈ cfg.joblist, inRangeB jobs.length idx = true) :
    ((selectJobs jobs cfg.joblist).filter (fun j => j.is_browser) ≠ [] →
      run_jobs (PsutilState.missing msg) cpu cfg jobs fetch =
        RunOutcome.importError
          (((selectJobs jobs cfg.joblist).filter (fun j => !j.is_browser)).map
            (fun j => (j, job_runner_step (fetch j)))) msg ∧
      (run_jobs (PsutilState.missing msg) cpu cfg jobs fetch).executed =
        (selectJobs jobs cfg.joblist).filter (fun j => !j.is_browser)) ∧
    ((selectJobs jobs cfg.joblist).filter (fun j => j.is_browser) = [] →
      ∃ tr, run_jobs (PsutilState.missing msg) cpu cfg jobs fetch = RunOutcome.ok tr) := by
  have hfind := find_bad_eq_none cfg.joblist jobs.length hvalid
  constructor
  · intro hp2
    have hrun : run_jobs (PsutilState.missing msg) cpu cfg jobs fetch =
        RunOutcome.importError
          (((selectJobs jobs cfg.joblist).filter (fun j => !j.is_browser)).map
            (fun j => (j, job_runner_step (fetch j)))) msg := by
      unfold run_jobs
      rw [hfind, if_neg hp2]
      rfl
    refine ⟨hrun, ?_⟩
    rw [hrun]
    show (((selectJobs jobs cfg.joblist).filter (fun j => !j.is_browser)).map
      (fun j => (j, job_runner_step (fetch j)))).map Prod.fst = _
    exact map_fst_map_pair _ _
  · intro hp2
    refine ⟨⟨((selectJobs jobs cfg.joblist).filter (fun j => !j.is_browser)).map
      (fun j => (j, job_runner_step (fetch j))), cfg.max_workers, [], none⟩, ?_⟩
    unfold run_jobs
    rw [hfind, if_pos hp2]

theorem claim_C8_probe_missing_fail_fast_witness :
    ((selectJobs [⟨1, false⟩, ⟨2, true⟩] (⟨[], none⟩ : UrlwatchConfig).joblist).filter
        (fun j => j.is_browser) ≠ [] →
      run_jobs (PsutilState.missing "no psutil") none ⟨[], none⟩ [⟨1, false⟩, ⟨2, true⟩]
          (fun _ => ⟨none, none, false, 0, "", 0, "", "x", []⟩) =
        RunOutcome.importError
          (((selectJobs [⟨1, false⟩, ⟨2, true⟩] (⟨[], none⟩ : UrlwatchConfig).joblist).filter
              (fun j => !j.is_browser)).map
            (fun j => (j, job_runner_step
              ((fun _ => (⟨none, none, false, 0, "", 0, "", "x", []⟩ : JobStateIn)) j))))
          "no psutil" ∧
      (run_jobs (PsutilState.missing "no psutil") none ⟨[], none⟩ [⟨1, false⟩, ⟨2, true⟩]
          (fun _ => ⟨none, none, false, 0, "", 0, "", "x", []⟩)).executed =
        (selectJobs [⟨1, false⟩, ⟨2, true⟩] (⟨[], none⟩ : UrlwatchConfig).joblist).filter
          (fun j => !j.is_browser)) ∧
    ((selectJobs [⟨1, false⟩, ⟨2, true⟩] (⟨[], none⟩ : UrlwatchConfig).joblist).filter
        (fun j => j.is_browser) = [] →
      ∃ tr, run_jobs (PsutilState.missing "no psutil") none ⟨[], none⟩ [⟨1, false⟩, ⟨2, true⟩]
          (fun _ => ⟨none, none, false, 0, "", 0, "", "x", []⟩) = RunOutcome.ok tr) :=
  claim_C8_probe_missing_fail_fast "no psutil" none ⟨[], none⟩ [⟨1, false⟩, ⟨2, true⟩]
    (fun _ => ⟨none, none, false, 0, "", 0, "", "x", []⟩)
    (fun idx h => absurd h (List.not_mem_nil idx))

/-- C10: line 220 calls `get_virt_mem()` before line 221 consults the
`max_workers` override, so with browser jobs present and `psutil` missing the
run raises `ImportError` even though an explicit (truthy) `max_workers`
override is configured — the override only bypasses the sizing formula, not
the probe. -/
theorem claim_C10_probe_precedes_override (msg : String) (cpu : Option Nat) (w : Nat)
    (cfg : UrlwatchConfig) (jobs : List Job) (fetch : Job → JobStateIn)
    (hvalid : ∀ idx ∈ cfg.joblist, inRangeB jobs.length idx = true)
    (hw : cfg.max_workers = some (w + 1))
    (hp2 : (selectJobs jobs cfg.joblist).filter (fun j => j.is_browser) ≠ []) :
    truthy cfg.max_workers = true ∧
    ∃ p1, run_jobs (PsutilState.missing msg) cpu cfg jobs fetch =
      RunOutcome.importError p1 msg := by
  have hfind := find_bad_eq_none cfg.joblist jobs.length hvalid
  constructor
  · rw [hw]
    rfl
  · refine ⟨((selectJobs jobs cfg.joblist).filter (fun j => !j.is_browser)).map
      (fun j => (j, job_runner_step (fetch j))), ?_⟩
    unfold run_jobs
    rw [hfind, if_neg hp2]
    rfl

theorem claim_C10_probe_precedes_override_witness :
    truthy (⟨[], some 4⟩ : UrlwatchConfig).max_workers = true ∧
    ∃ p1, run_jobs (PsutilState.missing "no psutil") none ⟨[], some 4⟩
        [⟨1, true⟩] (fun _ => ⟨none, none, false, 0, "", 0, "", "x", []⟩) =
      RunOutcome.importError p1 "no psutil" :=
  claim_C10_probe_precedes_override "no psutil" none 3 ⟨[], some 4⟩ [⟨1, true⟩]
    (fun _ => ⟨none, none, false, 0, "", 0, "", "x", []⟩)
    (fun idx h => absurd h (List.not_mem_nil idx)) rfl (by decide)

end Webchanges
